import Mathlib

/-!
Verification of the MRU (most recently used) tab-tracking core of the
TabHighlightExtension repository, as a shallow embedding in Lean.

The Coordinator (background service worker, src/background.ts) keeps a
bounded, duplicate-free stack of tab identifiers, persists it, and
broadcasts 1-based positions to tab agents.  The Tab Agent
(src/content.ts, and a variant with a breadcrumb-count setting) renders
a per-position marker in the page title and reconciles external title
changes.  Machine integers of the source are modelled as Nat and Int,
JavaScript strings as lists of characters, and the asynchronous
environment (tab lookups, message delivery, storage) as explicit
function arguments and explicit output fields.
-/

namespace TabHighlight

/-- Maximum number of tabs tracked in the MRU stack (src/types.ts). -/
def MAX_MRU_STACK_SIZE : Nat := 4

/-- The slice of a chrome tab object the Coordinator inspects: its URL,
which is possibly absent (undefined in the source). -/
structure Tab where
  url : Option String
deriving DecidableEq

/-- JavaScript String.startsWith, modelled on lists of characters
(first argument the string, second the candidate leading piece). -/
def jsStartsWith : List Char → List Char → Bool
  | _, [] => true
  | [], _ :: _ => false
  | a :: s, b :: p => a = b && jsStartsWith s p

/-- JavaScript Array.includes for arrays of numbers. -/
def jsIncludes : List Nat → Nat → Bool
  | [], _ => false
  | a :: l, x => a = x || jsIncludes l x

/-- JavaScript Array.indexOf for arrays of numbers: the first index of
the element, or -1 when absent. -/
def jsIndexOf : List Nat → Nat → Int
  | [], _ => -1
  | a :: l, x =>
    if a = x then 0
    else
      let r := jsIndexOf l x
      if r = -1 then -1 else r + 1

/-- isTrackableUrl from src/background.ts: a missing or empty URL is not
trackable (the source tests falsiness of the string), otherwise only
http and https URLs are trackable. -/
def isTrackableUrl : Option String → Bool
  | none => false
  | some url =>
    if url = "" then false
    else
      jsStartsWith url.toList ("http://").toList ||
        jsStartsWith url.toList ("https://").toList

/-- Outcome of the chrome.tabs.get lookup followed by the
isTrackableUrl test in updateMRU: false both when the lookup throws
(the tab no longer exists, env returns none) and when the URL is
untrackable.  The two early returns of the source behave identically
(no mutation, no write, no broadcast), so they are merged here. -/
def lookupTrackable (env : Nat → Option Tab) (tabId : Nat) : Bool :=
  match env tabId with
  | none => false
  | some tab => isTrackableUrl tab.url

/-- An UPDATE_POSITION message sent to one tab: recipient, 1-based
position (0 meaning clear), and the stack snapshot included in the
payload (timestamp omitted). -/
structure PositionMsg where
  tabId : Nat
  position : Nat
  snapshot : List Nat
deriving DecidableEq

/-- Result of one Coordinator operation: the new in-memory stack, the
list of persistence writes performed, and the messages sent. -/
structure StepOut where
  stack : List Nat
  writes : List (List Nat)
  msgs : List PositionMsg
deriving DecidableEq

/-- The first loop of broadcastPositions: the tab at index i of the
stack is sent position i+1 together with a snapshot of the stack. -/
def sendLoop (full : List Nat) : List Nat → Nat → List PositionMsg
  | [], _ => []
  | t :: ts, i => ⟨t, i, full⟩ :: sendLoop full ts (i + 1)

/-- broadcastPositions from src/background.ts: positions to every stack
member in order, then a clear (position 0) to every removed tab. -/
def broadcastPositions (stack removedTabs : List Nat) : List PositionMsg :=
  sendLoop stack stack 1 ++ removedTabs.map (fun id => ⟨id, 0, stack⟩)

/-- The pure stack mutation inside updateMRU: drop the tab if present,
push it to the front, truncate to the capacity when exceeded. -/
def updateMRUStack (st : List Nat) (tabId : Nat) : List Nat :=
  let filtered := st.filter (fun id => id != tabId)
  let fronted := tabId :: filtered
  if MAX_MRU_STACK_SIZE < fronted.length then
    fronted.take MAX_MRU_STACK_SIZE
  else fronted

/-- updateMRU from src/background.ts.  When the tab lookup fails or the
URL is untrackable the function returns without touching anything;
otherwise it mutates the stack, persists it, and broadcasts positions
to the new stack plus clears to the tabs that fell off. -/
def updateMRU (env : Nat → Option Tab) (tabId : Nat) (st : List Nat) :
    StepOut :=
  if lookupTrackable env tabId then
    let newStack := updateMRUStack st tabId
    let removedTabs := st.filter (fun id => !(jsIncludes newStack id))
    ⟨newStack, [newStack], broadcastPositions newStack removedTabs⟩
  else ⟨st, [], []⟩

/-- removeFromMRU from src/background.ts: drop the tab unconditionally,
persist, rebroadcast with an empty removed list. -/
def removeFromMRU (tabId : Nat) (st : List Nat) : StepOut :=
  let newStack := st.filter (fun id => id != tabId)
  ⟨newStack, [newStack], broadcastPositions newStack []⟩

/-- The two stack-mutating Coordinator events of claim C1: a tab
activation (handled by updateMRU) and a tab removal (removeFromMRU). -/
inductive CoordEvent where
  | activated (tabId : Nat)
  | removed (tabId : Nat)
deriving DecidableEq

/-- Dispatch one Coordinator event. -/
def coordStep (env : Nat → Option Tab) (e : CoordEvent) (st : List Nat) :
    StepOut :=
  match e with
  | .activated tabId => updateMRU env tabId st
  | .removed tabId => removeFromMRU tabId st

/-- Run a sequence of Coordinator events, keeping only the stack. -/
def runEvents (env : Nat → Option Tab) (es : List CoordEvent)
    (st : List Nat) : List Nat :=
  es.foldl (fun s e => (coordStep env e s).stack) st

/-- The documented MRU stack invariant: bounded by the capacity and
free of duplicate tab identifiers. -/
def mruInvariant (st : List Nat) : Prop :=
  st.length ≤ MAX_MRU_STACK_SIZE ∧ st.Nodup

/-- An environment in which every tab exists and has a trackable URL,
used to instantiate the general theorems on concrete inputs. -/
def demoEnv : Nat → Option Tab := fun _ => some ⟨some "https://example.com"⟩

/-- The response of the GET_MY_POSITION handler: the success flag, the
1-based position (0 for absence), and a snapshot of the stack. -/
structure QueryResp where
  success : Bool
  position : Nat
  snapshot : List Nat
deriving DecidableEq

/-- The GET_MY_POSITION branch of the chrome.runtime.onMessage handler
in src/background.ts: computes indexOf on the stack, answers index + 1
when the index is in range, otherwise 0, and also returns the stack it
leaves behind (the source never reassigns mruStack here). -/
def handleGetMyPosition (st : List Nat) (tabId : Nat) :
    QueryResp × List Nat :=
  let position := jsIndexOf st tabId
  if 0 ≤ position ∧ position < (MAX_MRU_STACK_SIZE : Int) then
    (⟨true, (position + 1).toNat, st⟩, st)
  else
    (⟨true, 0, st⟩, st)

/-- The verification loop of restoreMRUStackFromStorage in
src/background.ts: iterate the saved tab ids, keep those whose tab
still exists with a trackable URL (the valid predicate summarises the
chrome.tabs.get call plus the isTrackableUrl test), and break once the
restored stack reaches the capacity; as in the source, the capacity
test runs at the end of every iteration. -/
def restoreLoop (valid : Nat → Bool) : List Nat → List Nat → List Nat
  | acc, [] => acc
  | acc, tabId :: rest =>
    let acc2 := if valid tabId then acc ++ [tabId] else acc
    if MAX_MRU_STACK_SIZE ≤ acc2.length then acc2
    else restoreLoop valid acc2 rest

/-- Result of one run of restoreMRUStackFromStorage: the in-memory
stack afterwards, the storage contents afterwards (the cleaned stack
is re-persisted on success), and the returned restored flag. -/
structure ReloadOut where
  stack : List Nat
  persisted : List Nat
  restored : Bool
deriving DecidableEq

/-- restoreMRUStackFromStorage from src/background.ts, as a function of
the persisted stack, the validity assignment for tab ids, and the
current in-memory stack (empty right after a service-worker restart).
An empty saved stack and a restoration yielding nothing both leave the
in-memory stack and the storage untouched and report failure. -/
def restoreMRUStackFromStorage (valid : Nat → Bool) (saved : List Nat)
    (current : List Nat) : ReloadOut :=
  if saved.length = 0 then ⟨current, saved, false⟩
  else
    let restoredStack := restoreLoop valid [] saved
    if restoredStack.length = 0 then ⟨current, saved, false⟩
    else ⟨restoredStack, restoredStack, true⟩

/-- The messages the background chrome.runtime.onMessage listener can
receive: a position query from a tab (whose sender may lack a tab id)
and the mode-change notice sent by the settings popup. -/
inductive BgMessage where
  | getMyPosition (senderTab : Option Nat)
  | breadcrumbCountChange (count : Nat)
deriving DecidableEq

/-- Result of delivering one runtime message to the background
listener: the stack afterwards, persistence writes, broadcast
messages, and the response passed to sendResponse, if any. -/
structure BgOut where
  stack : List Nat
  writes : List (List Nat)
  msgs : List PositionMsg
  response : Option QueryResp
deriving DecidableEq

/-- The complete chrome.runtime.onMessage listener of
src/background.ts: it answers GET_MY_POSITION when the sender has a
tab id and does nothing for every other message — in particular the
BREADCRUMB_COUNT_CHANGE notice falls through with no stack mutation,
no write, no broadcast, and no response. -/
def bgOnMessage (m : BgMessage) (st : List Nat) : BgOut :=
  match m with
  | .getMyPosition (some tabId) =>
    ⟨(handleGetMyPosition st tabId).2, [], [],
     some (handleGetMyPosition st tabId).1⟩
  | .getMyPosition none => ⟨st, [], [], none⟩
  | .breadcrumbCountChange _ => ⟨st, [], [], none⟩

/-- Default breadcrumb count (src/constants.ts). -/
def DEFAULT_BREADCRUMB_COUNT : Nat := 1

/-- State of the breadcrumb-count-aware Tab Agent variant: the
displayed title, the remembered original title, the current position
(0 for no marker), and the cached breadcrumb count. -/
structure Agent5State where
  title : List Char
  originalTitle : List Char
  currentPosition : Nat
  breadcrumbCount : Nat
deriving DecidableEq

/-- removeIndicator of the breadcrumb-count-aware agent: restore the
original title when a marker is applied, otherwise do nothing. -/
def removeIndicator5 (s : Agent5State) : Agent5State :=
  if 0 < s.currentPosition then
    { s with title := s.originalTitle, currentPosition := 0 }
  else s

/-- The chrome.storage.onChanged listener of the breadcrumb-count-aware
agent: adopt the new count (falling back to the default when the new
value is absent), then, if a marker is applied, remove it when the new
count is 1 and the position is not 1, or when the position exceeds the
new count. -/
def onBreadcrumbCountChanged (newValue : Option Nat) (s : Agent5State) :
    Agent5State :=
  let s1 := { s with
    breadcrumbCount := newValue.getD DEFAULT_BREADCRUMB_COUNT }
  if 0 < s1.currentPosition then
    if s1.breadcrumbCount = 1 ∧ s1.currentPosition ≠ 1 then
      removeIndicator5 s1
    else if s1.breadcrumbCount < s1.currentPosition then
      removeIndicator5 s1
    else s1
  else s1

/-- State of the Tab Agent of src/content.ts: the displayed document
title, the remembered original title, the currently applied position
(0 when no marker), and the extension-context-invalidated flag.  The
favicon bookkeeping of the source manipulates the DOM only and never
feeds back into the title or position state, so it is not modelled. -/
structure AgentState where
  title : List Char
  originalTitle : List Char
  currentPosition : Nat
  invalidated : Bool
deriving DecidableEq

/-- The per-position title markers of src/content.ts (each carries a
leading space, as in the source). -/
def INDICATORS : Nat → List Char
  | 1 => (" 🟢").toList
  | 2 => (" 🟡").toList
  | 3 => (" 🟠").toList
  | 4 => (" 🔴").toList
  | _ => []

/-- removeIndicator from src/content.ts: when a marker is applied,
restore the original title and drop to position 0; otherwise do
nothing. -/
def removeIndicator (s : AgentState) : AgentState :=
  if 0 < s.currentPosition then
    { s with title := s.originalTitle, currentPosition := 0 }
  else s

/-- setPosition from src/content.ts.  Out-of-range positions delegate
to removeIndicator; an unchanged position is a no-op; otherwise the
agent recovers the original title (capturing the current title when
coming from position 0, stripping the old marker from the current
title when switching markers, keeping the remembered original when the
old marker is absent) and prepends the new marker. -/
def setPosition (position : Int) (s : AgentState) : AgentState :=
  if position < 1 ∨ 4 < position then removeIndicator s
  else if (s.currentPosition : Int) = position then s
  else
    let originalTitle :=
      if s.currentPosition = 0 then s.title
      else
        let oldIndicator := INDICATORS s.currentPosition
        if jsStartsWith s.title oldIndicator then
          s.title.drop oldIndicator.length
        else s.originalTitle
    { title := INDICATORS position.toNat ++ originalTitle,
      originalTitle := originalTitle,
      currentPosition := position.toNat,
      invalidated := s.invalidated }

/-- The marker-stripping loop of the title observer in src/content.ts:
try the markers for positions 1 to 4 in order and drop the first one
that leads the title, then stop. -/
def stripAnyIndicator (title : List Char) : List Char :=
  if jsStartsWith title (INDICATORS 1) then
    title.drop (INDICATORS 1).length
  else if jsStartsWith title (INDICATORS 2) then
    title.drop (INDICATORS 2).length
  else if jsStartsWith title (INDICATORS 3) then
    title.drop (INDICATORS 3).length
  else if jsStartsWith title (INDICATORS 4) then
    title.drop (INDICATORS 4).length
  else title

/-- One invocation of the title MutationObserver of src/content.ts on
a childList mutation: while a marker is applied and the title no
longer starts with it, extract a marker-free original from the current
title, adopt it, and re-apply the marker. -/
def titleObserverTick (s : AgentState) : AgentState :=
  if 0 < s.currentPosition then
    if jsStartsWith s.title (INDICATORS s.currentPosition) then s
    else
      let stripped := stripAnyIndicator s.title
      { s with originalTitle := stripped,
               title := INDICATORS s.currentPosition ++ stripped }
  else s

/-- Response the agent passes to sendResponse after an UPDATE_POSITION
message. -/
structure UpdateResp where
  success : Bool
  currentPosition : Nat
  documentTitle : List Char
deriving DecidableEq

/-- The UPDATE_POSITION branch of the chrome.runtime.onMessage
listener of src/content.ts: an invalidated agent ignores the message
entirely (no state change, no response); otherwise positions 1 to 4 go
to setPosition, everything else to removeIndicator, and a response is
sent. -/
def onUpdatePosition (position : Int) (s : AgentState) :
    AgentState × Option UpdateResp :=
  if s.invalidated then (s, none)
  else
    let s1 :=
      if 1 ≤ position ∧ position ≤ 4 then setPosition position s
      else removeIndicator s
    (s1, some ⟨true, s1.currentPosition, s1.title⟩)

/-- handleContextInvalidation from src/content.ts: its first line
returns when the invalidated flag is already set; otherwise it sets
the flag and restores the original title if a marker is applied.
Every call site in the source sets the flag itself immediately before
calling this function. -/
def handleContextInvalidation (s : AgentState) : AgentState :=
  if s.invalidated then s
  else
    let s1 := { s with invalidated := true }
    if 0 < s1.currentPosition then
      { s1 with title := s1.originalTitle, currentPosition := 0 }
    else s1

/-- Environment outcome of the GET_MY_POSITION round trip attempted by
verifyPosition: the send either throws (channel dead) or yields a
response carrying a success flag and a position. -/
inductive SendOutcome where
  | failed
  | ok (success : Bool) (position : Int)
deriving DecidableEq

/-- verifyPosition from src/content.ts (the self-healing query), as a
function of the environment: whether reading chrome.runtime identity
succeeds (ctxOk) and how the message send turns out.  The returned
Bool records whether an outgoing GET_MY_POSITION message was sent.
Both failure paths first set the invalidated flag and then call
handleContextInvalidation, exactly as the source does. -/
def verifyPosition (ctxOk : Bool) (outcome : SendOutcome)
    (s : AgentState) : AgentState × Bool :=
  if s.invalidated then (s, false)
  else if ctxOk = false then
    (handleContextInvalidation { s with invalidated := true }, false)
  else
    match outcome with
    | .failed =>
      (handleContextInvalidation { s with invalidated := true }, true)
    | .ok success position =>
      if success then
        if ¬((s.currentPosition : Int) = position) then
          if 1 ≤ position ∧ position ≤ 4 then
            (setPosition position s, true)
          else (removeIndicator s, true)
        else (s, true)
      else (s, true)

/-- The stack mutation of updateMRU keeps the stack duplicate-free and
within capacity, for any duplicate-free input stack. -/
theorem updateMRUStack_invariant {st : List Nat} (tabId : Nat)
    (h : st.Nodup) : mruInvariant (updateMRUStack st tabId) := by
  have hf : (st.filter (fun id => id != tabId)).Nodup := h.filter _
  have hmem : tabId ∉ st.filter (fun id => id != tabId) := by
    intro hm
    simpa using (List.mem_filter.mp hm).2
  have hcons : (tabId :: st.filter (fun id => id != tabId)).Nodup :=
    List.nodup_cons.mpr ⟨hmem, hf⟩
  simp only [updateMRUStack]
  split
  next hlen =>
    constructor
    · simp [List.length_take]
    · exact hcons.sublist (List.take_sublist _ _)
  next hlen =>
    exact ⟨Nat.le_of_not_lt hlen, hcons⟩

/-- Tab removal keeps the invariant. -/
theorem removeFromMRU_invariant {st : List Nat} (tabId : Nat)
    (h : mruInvariant st) : mruInvariant (removeFromMRU tabId st).stack := by
  obtain ⟨hlen, hnd⟩ := h
  simp only [removeFromMRU]
  exact ⟨le_trans (List.length_filter_le _ _) hlen, hnd.filter _⟩

/-- Every single Coordinator event keeps the invariant. -/
theorem coordStep_invariant (env : Nat → Option Tab) (e : CoordEvent)
    {st : List Nat} (h : mruInvariant st) :
    mruInvariant (coordStep env e st).stack := by
  cases e with
  | activated tabId =>
    simp only [coordStep, updateMRU]
    split
    · exact updateMRUStack_invariant tabId h.2
    · exact h
  | removed tabId => exact removeFromMRU_invariant tabId h

/-- Every run of Coordinator events from an invariant state ends in an
invariant state. -/
theorem runEvents_invariant (env : Nat → Option Tab)
    (es : List CoordEvent) {st : List Nat} (h : mruInvariant st) :
    mruInvariant (runEvents env es st) := by
  induction es generalizing st with
  | nil => exact h
  | cons e es ih => exact ih (coordStep_invariant env e h)

/-- C1: for every sequence of tab-activation (updateMRU) and
tab-removal (removeFromMRU) operations applied to the initially empty
MRU stack, at every point the stack has length at most
MAX_MRU_STACK_SIZE = 4 and contains no duplicate tab identifiers
(every point of a sequence is the final state of one of its prefixes,
and the sequence here is arbitrary). -/
theorem mru_stack_bounded_and_nodup (env : Nat → Option Tab)
    (es : List CoordEvent) :
    (runEvents env es []).length ≤ MAX_MRU_STACK_SIZE ∧
      (runEvents env es []).Nodup :=
  runEvents_invariant env es ⟨by simp, List.nodup_nil⟩

/-- C2: starting from the empty stack, activating five distinct
trackable tabs a b c d e in order leaves the stack [e, d, c, b]
(the last four, most-recent-first); after the first four activations
the stack is [d, c, b, a], and the fifth activation broadcasts
positions 1..4 to e, d, c, b and a position-0 clear message to the
evicted tab a. -/
theorem eviction_on_overflow (env : Nat → Option Tab) (a b c d e : Nat)
    (hta : lookupTrackable env a = true)
    (htb : lookupTrackable env b = true)
    (htc : lookupTrackable env c = true)
    (htd : lookupTrackable env d = true)
    (hte : lookupTrackable env e = true)
    (hab : a ≠ b) (hac : a ≠ c) (had : a ≠ d) (hae : a ≠ e)
    (hbc : b ≠ c) (hbd : b ≠ d) (hbe : b ≠ e)
    (hcd : c ≠ d) (hce : c ≠ e) (hde : d ≠ e) :
    runEvents env
        [.activated a, .activated b, .activated c, .activated d] [] =
      [d, c, b, a] ∧
    runEvents env
        [.activated a, .activated b, .activated c, .activated d,
         .activated e] [] =
      [e, d, c, b] ∧
    (updateMRU env e [d, c, b, a]).msgs =
      [⟨e, 1, [e, d, c, b]⟩, ⟨d, 2, [e, d, c, b]⟩, ⟨c, 3, [e, d, c, b]⟩,
       ⟨b, 4, [e, d, c, b]⟩, ⟨a, 0, [e, d, c, b]⟩] := by
  refine ⟨?_, ?_, ?_⟩ <;>
    simp [runEvents, coordStep, updateMRU, updateMRUStack, jsIncludes,
      broadcastPositions, sendLoop, MAX_MRU_STACK_SIZE,
      hta, htb, htc, htd, hte,
      hab, hac, had, hae, hbc, hbd, hbe, hcd, hce, hde,
      hab.symm, hac.symm, had.symm, hae.symm, hbc.symm, hbd.symm,
      hbe.symm, hcd.symm, hce.symm, hde.symm]

/-- Witness for C2 at the concrete scenario of the spec: N = 4,
activating tabs 1 2 3 4 5 in order yields stack [5, 4, 3, 2] and tab 1
receives a position-0 broadcast. -/
theorem eviction_on_overflow_witness :
    runEvents demoEnv
        [.activated 1, .activated 2, .activated 3, .activated 4] [] =
      [4, 3, 2, 1] ∧
    runEvents demoEnv
        [.activated 1, .activated 2, .activated 3, .activated 4,
         .activated 5] [] =
      [5, 4, 3, 2] ∧
    (updateMRU demoEnv 5 [4, 3, 2, 1]).msgs =
      [⟨5, 1, [5, 4, 3, 2]⟩, ⟨4, 2, [5, 4, 3, 2]⟩, ⟨3, 3, [5, 4, 3, 2]⟩,
       ⟨2, 4, [5, 4, 3, 2]⟩, ⟨1, 0, [5, 4, 3, 2]⟩] :=
  eviction_on_overflow demoEnv 1 2 3 4 5
    (by decide) (by decide) (by decide) (by decide) (by decide)
    (by decide) (by decide) (by decide) (by decide) (by decide)
    (by decide) (by decide) (by decide) (by decide) (by decide)

/-- jsIndexOf answers -1 exactly on absent elements. -/
theorem jsIndexOf_of_not_mem {l : List Nat} {x : Nat} (h : x ∉ l) :
    jsIndexOf l x = -1 := by
  induction l with
  | nil => rfl
  | cons a l ih =>
    have hax : a ≠ x := fun e => h (e ▸ List.mem_cons_self a l)
    have hm : x ∉ l := fun hm => h (List.mem_cons_of_mem a hm)
    simp [jsIndexOf, hax, ih hm]

/-- On present elements jsIndexOf agrees with the first-occurrence
index. -/
theorem jsIndexOf_of_mem {l : List Nat} {x : Nat} (h : x ∈ l) :
    jsIndexOf l x = (l.indexOf x : Int) := by
  induction l with
  | nil => cases h
  | cons a l ih =>
    by_cases hax : a = x
    · subst hax
      simp [jsIndexOf]
    · have hm : x ∈ l := by
        rcases List.mem_cons.mp h with h1 | h1
        · exact absurd h1.symm hax
        · exact h1
      have hge : (0 : Int) ≤ jsIndexOf l x := by
        rw [ih hm]
        exact Int.ofNat_nonneg _
      have hne : jsIndexOf l x ≠ -1 := by omega
      simp only [jsIndexOf, if_neg hax, if_neg hne, ih hm,
        List.indexOf_cons_ne _ hax]
      push_cast
      ring

/-- C3: for every stack state of the data model (bounded by the
capacity, as every reachable Coordinator stack is) and every tab id,
the GET_MY_POSITION handler leaves the stack unchanged, snapshots it
in the response, and answers exactly 1 plus the 0-based index of the
id when the id is in the stack and 0 when it is not. -/
theorem get_my_position_correct (st : List Nat) (tabId : Nat)
    (h : st.length ≤ MAX_MRU_STACK_SIZE) :
    (handleGetMyPosition st tabId).2 = st ∧
    (handleGetMyPosition st tabId).1.snapshot = st ∧
    (tabId ∈ st →
      (handleGetMyPosition st tabId).1.position = st.indexOf tabId + 1) ∧
    (tabId ∉ st → (handleGetMyPosition st tabId).1.position = 0) := by
  refine ⟨?_, ?_, ?_, ?_⟩
  · simp only [handleGetMyPosition]
    split <;> rfl
  · simp only [handleGetMyPosition]
    split <;> rfl
  · intro hmem
    have hidx := jsIndexOf_of_mem hmem
    have hlt : st.indexOf tabId < st.length :=
      List.indexOf_lt_length.mpr hmem
    simp only [handleGetMyPosition, hidx]
    rw [if_pos]
    · simp only []
      omega
    · constructor
      · exact Int.ofNat_nonneg _
      · simp only [MAX_MRU_STACK_SIZE] at h ⊢
        omega
  · intro hmem
    simp [handleGetMyPosition, jsIndexOf_of_not_mem hmem]

/-- Witness for C3 on the concrete stack [20, 10] and tab ids 10 (a
member, at 0-based index 1) and 7 (absent). -/
theorem get_my_position_correct_witness :
    (([20, 10] : List Nat).length ≤ MAX_MRU_STACK_SIZE ∧
      ((handleGetMyPosition [20, 10] 10).2 = [20, 10] ∧
        (handleGetMyPosition [20, 10] 10).1.snapshot = [20, 10] ∧
        (10 ∈ ([20, 10] : List Nat) →
          (handleGetMyPosition [20, 10] 10).1.position =
            ([20, 10] : List Nat).indexOf 10 + 1) ∧
        (10 ∉ ([20, 10] : List Nat) →
          (handleGetMyPosition [20, 10] 10).1.position = 0))) ∧
    (([20, 10] : List Nat).length ≤ MAX_MRU_STACK_SIZE ∧
      ((handleGetMyPosition [20, 10] 7).2 = [20, 10] ∧
        (handleGetMyPosition [20, 10] 7).1.snapshot = [20, 10] ∧
        (7 ∈ ([20, 10] : List Nat) →
          (handleGetMyPosition [20, 10] 7).1.position =
            ([20, 10] : List Nat).indexOf 7 + 1) ∧
        (7 ∉ ([20, 10] : List Nat) →
          (handleGetMyPosition [20, 10] 7).1.position = 0))) :=
  ⟨⟨by decide, get_my_position_correct [20, 10] 10 (by decide)⟩,
   ⟨by decide, get_my_position_correct [20, 10] 7 (by decide)⟩⟩

/-- The restore loop computes the capacity-bounded prefix of the valid
entries, in their saved order. -/
theorem restoreLoop_eq (valid : Nat → Bool) (l : List Nat) :
    ∀ acc, acc.length < MAX_MRU_STACK_SIZE →
      restoreLoop valid acc l =
        (acc ++ l.filter valid).take MAX_MRU_STACK_SIZE := by
  induction l with
  | nil =>
    intro acc hacc
    simp [restoreLoop, List.take_of_length_le (le_of_lt hacc)]
  | cons t rest ih =>
    intro acc hacc
    by_cases hv : valid t
    · simp only [restoreLoop, hv, if_true]
      by_cases hlen : MAX_MRU_STACK_SIZE ≤ (acc ++ [t]).length
      · rw [if_pos hlen]
        have h4 : (acc ++ [t]).length = MAX_MRU_STACK_SIZE := by
          simp only [List.length_append, List.length_singleton] at hlen ⊢
          omega
        have hsplit : acc ++ t :: rest.filter valid =
            (acc ++ [t]) ++ rest.filter valid := by simp
        rw [List.filter_cons, if_pos hv, hsplit, ← h4, List.take_left]
      · rw [if_neg hlen]
        have hlt : (acc ++ [t]).length < MAX_MRU_STACK_SIZE :=
          Nat.lt_of_not_le hlen
        rw [ih (acc ++ [t]) hlt, List.filter_cons, if_pos hv]
        simp
    · have hcond : (if valid t then acc ++ [t] else acc) = acc := by
        simp [hv]
      simp only [restoreLoop, hcond]
      rw [if_neg (Nat.not_le_of_lt hacc), ih acc hacc, List.filter_cons,
        if_neg (by simp [hv])]

/-- C4: for every persisted stack S and validity assignment, the
restart-recovery reload run on the empty in-memory stack (the state
right after a restart) yields S filtered to the valid ids, in the same
relative order, bounded by the capacity; and running the reload again
on the resulting persisted and in-memory state, with no intervening
events, yields the same stack. -/
theorem restart_recovery_correct (valid : Nat → Bool)
    (saved : List Nat) :
    (restoreMRUStackFromStorage valid saved []).stack =
      (saved.filter valid).take MAX_MRU_STACK_SIZE ∧
    (restoreMRUStackFromStorage valid
        (restoreMRUStackFromStorage valid saved []).persisted
        (restoreMRUStackFromStorage valid saved []).stack).stack =
      (restoreMRUStackFromStorage valid saved []).stack := by
  have hloop : ∀ s : List Nat,
      restoreLoop valid [] s =
        (s.filter valid).take MAX_MRU_STACK_SIZE := by
    intro s
    simpa using restoreLoop_eq valid s [] (by simp [MAX_MRU_STACK_SIZE])
  by_cases hs : saved.length = 0
  · have hnil : saved = [] := List.length_eq_zero.mp hs
    subst hnil
    constructor
    · simp [restoreMRUStackFromStorage]
    · simp [restoreMRUStackFromStorage]
  · have hrest := hloop saved
    by_cases hr0 : ((saved.filter valid).take MAX_MRU_STACK_SIZE).length = 0
    · have hRnil : (saved.filter valid).take MAX_MRU_STACK_SIZE = [] :=
        List.length_eq_zero.mp hr0
      constructor
      · simp [restoreMRUStackFromStorage, hs, hrest, hRnil]
      · simp [restoreMRUStackFromStorage, hs, hrest, hRnil]
    · have hvalid : ((saved.filter valid).take MAX_MRU_STACK_SIZE).filter
          valid = (saved.filter valid).take MAX_MRU_STACK_SIZE := by
        apply List.filter_eq_self.mpr
        intro a ha
        exact (List.mem_filter.mp (List.mem_of_mem_take ha)).2
      have hlen : ((saved.filter valid).take MAX_MRU_STACK_SIZE).length ≤
          MAX_MRU_STACK_SIZE := by
        simp [List.length_take]
      have htake := List.take_of_length_le hlen
      have hfirst : restoreMRUStackFromStorage valid saved [] =
          ⟨(saved.filter valid).take MAX_MRU_STACK_SIZE,
           (saved.filter valid).take MAX_MRU_STACK_SIZE, true⟩ := by
        unfold restoreMRUStackFromStorage
        rw [if_neg hs]
        simp only [hrest]
        rw [if_neg hr0]
      have h2 : restoreLoop valid []
          ((saved.filter valid).take MAX_MRU_STACK_SIZE) =
          (saved.filter valid).take MAX_MRU_STACK_SIZE := by
        rw [hloop, hvalid, htake]
      constructor
      · rw [hfirst]
      · rw [hfirst]
        unfold restoreMRUStackFromStorage
        rw [if_neg hr0]
        simp only [h2]
        rw [if_neg hr0]

/-- C6: activating a tab whose URL is not trackable, or whose lookup
fails because the tab no longer exists, leaves the MRU stack
unchanged, performs no persistence write, and sends no broadcast
message. -/
theorem untrackable_activation_noop (env : Nat → Option Tab)
    (tabId : Nat) (st : List Nat)
    (h : lookupTrackable env tabId = false) :
    updateMRU env tabId st = ⟨st, [], []⟩ := by
  simp [updateMRU, h]

/-- Witness for C6: a tab whose lookup fails (tab 1 in an empty
environment) and a tab on an internal chrome page (tab 2). -/
theorem untrackable_activation_noop_witness :
    lookupTrackable (fun _ => (none : Option Tab)) 1 = false ∧
    lookupTrackable (fun _ => some ⟨some "chrome://settings"⟩) 2 =
      false ∧
    updateMRU (fun _ => (none : Option Tab)) 1 [3, 4] = ⟨[3, 4], [], []⟩ ∧
    updateMRU (fun _ => some ⟨some "chrome://settings"⟩) 2 [3, 4] =
      ⟨[3, 4], [], []⟩ :=
  ⟨by decide, by decide,
   untrackable_activation_noop (fun _ => none) 1 [3, 4] (by decide),
   untrackable_activation_noop (fun _ => some ⟨some "chrome://settings"⟩)
     2 [3, 4] (by decide)⟩

/-- C5 counterexample: delivering the mode-change notice (new count 1)
to the background listener with stack [8, 6, 4, 2] leaves the stack
[8, 6, 4, 2] — not [8] as the claim states — and produces no
truncation, no position-0 broadcasts, and no persistence write. -/
theorem mode_change_coordinator_counterexample :
    bgOnMessage (.breadcrumbCountChange 1) [8, 6, 4, 2] =
      ⟨[8, 6, 4, 2], [], [], none⟩ ∧
    ([8, 6, 4, 2] : List Nat) ≠ [8] := by decide

/-- C5 amended: when the display mode changes to a new count, the
Coordinator ignores the notice entirely (stack, storage and broadcasts
unchanged); instead each Tab Agent reacts to the synced-storage change
itself: an agent marked at a position other than 1 removes its own
indicator and restores its original title when the count becomes 1,
while the agent at position 1 keeps its marker. -/
theorem mode_change_handled_by_agents (st : List Nat)
    (title orig : List Char) (p : Nat) (hp1 : 1 ≤ p) (hp4 : p ≤ 4) :
    bgOnMessage (.breadcrumbCountChange 1) st = ⟨st, [], [], none⟩ ∧
    (p ≠ 1 →
      onBreadcrumbCountChanged (some 1) ⟨title, orig, p, 4⟩ =
        ⟨orig, orig, 0, 1⟩) ∧
    (p = 1 →
      onBreadcrumbCountChanged (some 1) ⟨title, orig, p, 4⟩ =
        ⟨title, orig, 1, 1⟩) := by
  have h0 : 0 < p := hp1
  refine ⟨rfl, ?_, ?_⟩
  · intro hne
    simp [onBreadcrumbCountChanged, removeIndicator5, DEFAULT_BREADCRUMB_COUNT, h0, hne]
  · intro h1
    subst h1
    simp [onBreadcrumbCountChanged, DEFAULT_BREADCRUMB_COUNT]

/-- Witness for C5 amended at the concrete scenario: count 4 to 1,
stack [8, 6, 4, 2], an agent marked at position 2. -/
theorem mode_change_handled_by_agents_witness :
    bgOnMessage (.breadcrumbCountChange 1) [8, 6, 4, 2] =
      ⟨[8, 6, 4, 2], [], [], none⟩ ∧
    ((2 : Nat) ≠ 1 →
      onBreadcrumbCountChanged (some 1) ⟨['a'], ['b'], 2, 4⟩ =
        ⟨['b'], ['b'], 0, 1⟩) ∧
    ((2 : Nat) = 1 →
      onBreadcrumbCountChanged (some 1) ⟨['a'], ['b'], 2, 4⟩ =
        ⟨['a'], ['b'], 1, 1⟩) :=
  mode_change_handled_by_agents [8, 6, 4, 2] ['a'] ['b'] 2
    (by decide) (by decide)

/-- C7: for a Tab Agent in the NoMarker state with original title t,
applying Marked(p) via setPosition and then the transition to NoMarker
via removeIndicator restores the title to exactly t, for every p in
1..4, with no intervening page title change. -/
theorem marker_round_trip (t o : List Char) (p : Int)
    (hp1 : 1 ≤ p) (hp4 : p ≤ 4) :
    removeIndicator (setPosition p ⟨t, o, 0, false⟩) =
      ⟨t, t, 0, false⟩ := by
  have hc : ¬(p < 1 ∨ 4 < p) := by omega
  have hne : ¬(((0 : Nat) : Int) = p) := by omega
  have hne2 : ¬((0 : Int) = p) := by omega
  have hpt : 0 < p.toNat := by omega
  simp [setPosition, removeIndicator, hc, hne, hne2, hpt]

/-- Witness for C7 at p = 2 and title Hello. -/
theorem marker_round_trip_witness :
    removeIndicator
        (setPosition 2 ⟨("Hello").toList, ("Old").toList, 0, false⟩) =
      ⟨("Hello").toList, ("Hello").toList, 0, false⟩ :=
  marker_round_trip ("Hello").toList ("Old").toList 2
    (by decide) (by decide)

/-- A string trivially starts with any piece it begins with. -/
theorem jsStartsWith_append_self (a b : List Char) :
    jsStartsWith (a ++ b) a = true := by
  induction a with
  | nil => cases b <;> rfl
  | cons c cs ih => simp [jsStartsWith, ih]

/-- C8: while the agent is Marked(p), if the page externally sets the
title to a string T that starts with no marker, the next title
observer invocation produces exactly marker(p) ++ T (adopting T as the
new original); and applying the observer to the already-correct title
changes nothing. -/
theorem external_title_change_convergence (p : Nat)
    (hp : p ∈ ([1, 2, 3, 4] : List Nat)) (T orig : List Char)
    (hT : ∀ i ∈ ([1, 2, 3, 4] : List Nat),
      jsStartsWith T (INDICATORS i) = false) :
    titleObserverTick ⟨T, orig, p, false⟩ =
      ⟨INDICATORS p ++ T, T, p, false⟩ ∧
    titleObserverTick ⟨INDICATORS p ++ T, T, p, false⟩ =
      ⟨INDICATORS p ++ T, T, p, false⟩ := by
  have h0 : 0 < p := by
    have hp2 := hp
    simp only [List.mem_cons, List.not_mem_nil, or_false] at hp2
    omega
  have hTp : jsStartsWith T (INDICATORS p) = false := hT p hp
  have hstrip : stripAnyIndicator T = T := by
    simp [stripAnyIndicator, hT 1 (by decide), hT 2 (by decide),
      hT 3 (by decide), hT 4 (by decide)]
  constructor
  · simp [titleObserverTick, h0, hTp, hstrip]
  · simp [titleObserverTick, h0, jsStartsWith_append_self]

/-- Witness for C8 at p = 3 and external title Hello. -/
theorem external_title_change_convergence_witness :
    titleObserverTick ⟨("Hello").toList, ("Old").toList, 3, false⟩ =
      ⟨INDICATORS 3 ++ ("Hello").toList, ("Hello").toList, 3, false⟩ ∧
    titleObserverTick
        ⟨INDICATORS 3 ++ ("Hello").toList, ("Hello").toList, 3,
         false⟩ =
      ⟨INDICATORS 3 ++ ("Hello").toList, ("Hello").toList, 3,
       false⟩ :=
  external_title_change_convergence 3 (by decide) ("Hello").toList
    ("Old").toList (by decide)

/-- C10: an UPDATE_POSITION message whose position lies anywhere
outside 1..4 — negative values and values above 4 included — is
handled exactly like position 0: for a live agent, a marked state
restores the original title and enters NoMarker, an unmarked state is
untouched; the handler is a total function, so it cannot throw. -/
theorem out_of_range_position_clears (p : Int) (hp : p < 1 ∨ 4 < p)
    (s : AgentState) :
    onUpdatePosition p s = onUpdatePosition 0 s ∧
    (s.invalidated = false →
      (0 < s.currentPosition →
        (onUpdatePosition p s).1 =
          { s with title := s.originalTitle, currentPosition := 0 }) ∧
      (s.currentPosition = 0 → (onUpdatePosition p s).1 = s)) := by
  have hc : ¬(1 ≤ p ∧ p ≤ 4) := by omega
  have hc0 : ¬(1 ≤ (0 : Int) ∧ (0 : Int) ≤ 4) := by decide
  constructor
  · by_cases hi : s.invalidated <;>
      simp [onUpdatePosition, hi, hc, hc0]
  · intro hinv
    constructor
    · intro hpos
      simp [onUpdatePosition, hinv, hc, removeIndicator, hpos]
    · intro hz
      simp [onUpdatePosition, hinv, hc, removeIndicator, hz]

/-- Witness for C10 at position -3 on a live agent marked at
position 2. -/
theorem out_of_range_position_clears_witness :
    onUpdatePosition (-3) ⟨['a'], ['b'], 2, false⟩ =
      onUpdatePosition 0 ⟨['a'], ['b'], 2, false⟩ ∧
    ((AgentState.mk ['a'] ['b'] 2 false).invalidated = false →
      (0 < (AgentState.mk ['a'] ['b'] 2 false).currentPosition →
        (onUpdatePosition (-3) ⟨['a'], ['b'], 2, false⟩).1 =
          ⟨['b'], ['b'], 0, false⟩) ∧
      ((AgentState.mk ['a'] ['b'] 2 false).currentPosition = 0 →
        (onUpdatePosition (-3) ⟨['a'], ['b'], 2, false⟩).1 =
          ⟨['a'], ['b'], 2, false⟩)) :=
  out_of_range_position_clears (-3) (by decide) ⟨['a'], ['b'], 2, false⟩

/-- C9, evaluated at a failing input.  An agent marked at position 2
attempts the self-healing query, the send throws (the channel is
permanently dead), and the source sets the invalidated flag before
calling handleContextInvalidation — whose first line then returns
early.  The resulting state is marked dead but still carries the
marker in the title and position 2: the original title is NOT
restored, contrary to the claim (and to the cleanup code the source
itself contains but never reaches). -/
theorem dead_channel_keeps_marker :
    (verifyPosition true .failed
        ⟨INDICATORS 2 ++ ("Hello").toList, ("Hello").toList, 2,
         false⟩).1 =
      ⟨INDICATORS 2 ++ ("Hello").toList, ("Hello").toList, 2, true⟩ ∧
    (INDICATORS 2 ++ ("Hello").toList : List Char) ≠
      ("Hello").toList := by decide

end TabHighlight
